import Mathlib

/-!
Verification development for the HackingBuddyGPT front-end core
(`src/services/HackingBuddyService.ts`, two revisions of the same class, plus
`src/types/index.ts` and `src/App.tsx`).

The TypeScript service is shallowly embedded:
* pure text processing (the command-extraction regex, the detection-rule
  regexes, the keyword scan) becomes pure functions on `List Char` / `String`;
* the orchestrator (`HackingBuddyService`) becomes explicit state passing over
  `OrchState`, with emitted events collected in a list;
* `async` methods that can `throw` return `Except String _`;
* timers (`setInterval` handles) are modelled by a list of scheduled timer
  records plus the `scanInterval` field tracking the most recent handle, and a
  timer tick is an explicit step function;
* wall-clock time (`Date`, latency) is not modelled: timestamps and
  time-derived ids are threaded as explicit parameters where a claim needs
  them, and the artificial delays of the simulator are dropped (they do not
  affect any result content).
-/

/- ### Basic character/text primitives (JS string semantics) -/

/-- The backtick character (used by the fenced-code-block regex); written via
`Char.ofNat` so the code fence is assembled explicitly. -/
def bq : Char := Char.ofNat 96

/-- JS `\s` on the ASCII range: space, tab, newline, carriage return,
vertical tab, form feed.  (JS also counts some Unicode spaces; none of the
modelled texts contain those.) -/
def isWs (c : Char) : Bool :=
  c = ' ' || c = '\t' || c = '\n' || c = '\r' || c = '\x0b' || c = '\x0c'

/-- Characters matched by an un-flagged JS `.` (no `s` flag): everything except
line terminators. -/
def isDotChar (c : Char) : Bool :=
  !(c = '\n' || c = '\r')

/-- Boolean list-prefix test (JS-style `startsWith` on character lists). -/
def isPre : List Char → List Char → Bool
  | [], _ => true
  | _ :: _, [] => false
  | a :: as, b :: bs => a = b && isPre as bs

/-- Substring containment, the semantics of JS `String.prototype.includes`. -/
def containsSub (needle : List Char) : List Char → Bool
  | [] => isPre needle []
  | c :: rest => isPre needle (c :: rest) || containsSub needle rest

/-- Lower-casing, the semantics of JS `toLowerCase` on ASCII text. -/
def lowerL (l : List Char) : List Char := l.map Char.toLower

/-- JS `String.prototype.trim`: drop `\s` characters from both ends. -/
def trimChars (l : List Char) : List Char :=
  ((l.dropWhile isWs).reverse.dropWhile isWs).reverse

/-- Matcher for a JS regex fragment `.*?P` (equivalently: some run of
non-line-terminator characters followed by the literal `p`). -/
def dotStarThen (p : List Char) : List Char → Bool
  | [] => isPre p []
  | c :: rest => isPre p (c :: rest) || (isDotChar c && dotStarThen p rest)

/-- Matcher for a JS regex `P1.*P2` tested anywhere in the subject (the
semantics of `RegExp.prototype.test` for the detection rules below):
some occurrence of `p1`, then non-line-terminator characters, then `p2`. -/
def seqTest (p1 p2 : List Char) : List Char → Bool
  | [] => isPre p1 [] && dotStarThen p2 []
  | c :: rest =>
      (isPre p1 (c :: rest) && dotStarThen p2 ((c :: rest).drop p1.length)) ||
      seqTest p1 p2 rest

/- ### The command-extraction regex

The source (`analyzeAIResponse`, both revisions) runs
`/```(?:bash|shell)?\s*(.*?)\s*```/gs` over the model reply and pushes
`match[1].trim()` for every match.  Operationally (leftmost match, greedy
optional tag, lazy body): find the next `` ``` `` fence; strip a literal
`bash`/`shell` tag if one sits immediately after it; the capture runs up to
the next fence, with the surrounding `\s*` and the `.trim()` together
trimming whitespace from both ends of the captured body. -/

/-- Split a character list at the first occurrence of a `` ``` `` fence:
returns the text before the fence and the text after it. -/
def splitAtFence : List Char → Option (List Char × List Char)
  | [] => none
  | c :: rest =>
      if c = bq ∧ rest.take 2 = [bq, bq] then some ([], rest.drop 2)
      else (splitAtFence rest).map (fun p => (c :: p.1, p.2))

/-- The sequence `bash` as characters. -/
def bashL : List Char := ['b', 'a', 's', 'h']

/-- The sequence `shell` as characters. -/
def shellL : List Char := ['s', 'h', 'e', 'l', 'l']

/-- The optional `(?:bash|shell)?` tag right after the opening fence:
`bash` is tried first, then `shell`, then nothing (regex alternation order). -/
def stripTag (l : List Char) : List Char :=
  if isPre bashL l then l.drop 4
  else if isPre shellL l then l.drop 5
  else l

/-- The repeated `exec` loop, fuelled for structural recursion: each match
consumes at least the two fences (6 characters), so `l.length` steps always
suffice; `extractGo_fuel` below shows the fuel does not matter once
sufficient. -/
def extractGo : Nat → List Char → List (List Char)
  | 0, _ => []
  | fuel + 1, l =>
      match splitAtFence l with
      | none => []
      | some pr =>
          match splitAtFence (stripTag pr.2) with
          | none => []
          | some pr2 => trimChars pr2.1 :: extractGo fuel pr2.2

/-- The list of commands extracted from a model reply by the global regex
scan in `analyzeAIResponse`, in source order. -/
def extractCommandsL (l : List Char) : List (List Char) :=
  extractGo l.length l

/-- String-level wrapper for `extractCommandsL` (the `commands` array built by
`analyzeAIResponse`). -/
def extractCommands (s : String) : List String :=
  (extractCommandsL s.toList).map (fun l => String.mk l)

/- ### Data model (`src/types/index.ts`) -/

/-- `LLMConfiguration` from `src/types/index.ts`. -/
structure LLMConfiguration where
  model : String
  api_url : String
  api_key : String
  context_size : Nat
  api_path : String
  api_timeout : Nat
  api_backoff : Nat
  api_retries : Nat
deriving DecidableEq, Repr

/-- `ConnectionConfiguration` from `src/types/index.ts`. -/
structure ConnectionConfiguration where
  host : String
  hostname : String
  port : Nat
  username : String
  password : String
  keyfilename : String
deriving DecidableEq, Repr

/-- `Configuration` from `src/types/index.ts`. -/
structure Configuration where
  llm : LLMConfiguration
  connection : ConnectionConfiguration
deriving DecidableEq, Repr

/-- The `sender` field of a `ChatMessage`. -/
inductive Sender
  | user
  | assistant
  | system
deriving DecidableEq, Repr

/-- The `type` field of a `ChatMessage`. -/
inductive MsgType
  | text
  | command
  | result
  | error
  | vulnerability
deriving DecidableEq, Repr

/-- A `ChatMessage` minus the `id`/`timestamp` fields assigned at emission
time (the `Omit<ChatMessage, 'id' | 'timestamp'>` argument of `emitMessage`).
The optional `metadata` object is flattened into its two used fields. -/
structure MsgPayload where
  content : String
  sender : Sender
  mtype : MsgType
  metaCommand : Option String := none
  metaExitCode : Option Int := none
deriving DecidableEq, Repr

/-- A full `ChatMessage`: payload plus the orchestrator-assigned `id`
(string form of the monotone counter) and `timestamp`. -/
structure ChatMessage where
  payload : MsgPayload
  id : String
  timestamp : Nat
deriving DecidableEq, Repr

/-- The `severity` field of a `Vulnerability`. -/
inductive Severity
  | low
  | medium
  | high
  | critical
deriving DecidableEq, Repr

/-- A `Vulnerability` minus the `id`/`discoveredAt` fields assigned at
emission time (the argument type of `emitVulnerability`). -/
structure VulnPayload where
  title : String
  description : String
  severity : Severity
  category : String
  affectedComponent : String
  recommendation : String
  evidence : List String
deriving DecidableEq, Repr

/-- A full `Vulnerability` record: payload plus `id` (built from `Date.now()`)
and `discoveredAt`. -/
structure Vulnerability where
  payload : VulnPayload
  id : String
  discoveredAt : Nat
deriving DecidableEq, Repr

/- ### CommandSimulator (`simulateCommandExecution`, identical in both
revisions).  The artificial 500ms-2.5s delay is dropped: it does not affect
the result content. -/

/-- Result shape of a simulated command. -/
structure CommandResult where
  output : String
  exitCode : Int
deriving DecidableEq, Repr

/-- The canned-output lookup table of `simulateCommandExecution`; unknown
commands fall through to a generic success stub. -/
def simulateCommandExecution (command : String) : CommandResult :=
  if command = "id" then
    { output := "uid=1001(user) gid=1001(user) groups=1001(user)", exitCode := 0 }
  else if command = "whoami" then
    { output := "user", exitCode := 0 }
  else if command = "sudo -l" then
    { output := "User user may run the following commands on target:\n    (ALL) NOPASSWD: /usr/bin/find", exitCode := 0 }
  else if command = "find / -perm -4000 2>/dev/null" then
    { output := "/usr/bin/passwd\n/usr/bin/sudo\n/usr/bin/find\n/usr/bin/python3", exitCode := 0 }
  else if command = "ls -la /etc/passwd" then
    { output := "-rw-r--r-- 1 root root 2847 Oct 15 10:30 /etc/passwd", exitCode := 0 }
  else if command = "cat /etc/os-release" then
    { output := "NAME=\"Ubuntu\"\nVERSION=\"20.04.3 LTS (Focal Fossa)\"\nID=ubuntu\nID_LIKE=debian", exitCode := 0 }
  else if command = "ps aux" then
    { output := "USER       PID %CPU %MEM    VSZ   RSS TTY      STAT START   TIME COMMAND\nroot         1  0.0  0.1 169404 11084 ?        Ss   Oct15   0:02 /sbin/init\nroot         2  0.0  0.0      0     0 ?        S    Oct15   0:00 [kthreadd]", exitCode := 0 }
  else
    { output := "Command \x27" ++ command ++ "\x27 executed successfully", exitCode := 0 }

/- ### PatternCatalog (`analyzeCommandResult` rules and
`detectVulnerabilitiesFromResponse` keywords, identical in both revisions) -/

/-- One entry of the `vulnerabilityPatterns` array: the regex test plus the
finding template.  `evidence` is always `[command, output]` and
`affectedComponent` is filled from the configuration at emission, so neither
is stored in the rule. -/
structure VulnRule where
  test : String → Bool
  title : String
  description : String
  severity : Severity
  category : String
  recommendation : String

/-- Rule 1 regex `/NOPASSWD.*find/i`: case-insensitive, `.` does not cross
line terminators. -/
def testNopasswdFind (out : String) : Bool :=
  seqTest (lowerL "NOPASSWD".toList) "find".toList (lowerL out.toList)

/-- Rule 2 regex `/\/usr\/bin\/python3.*4000/` (case-sensitive). -/
def testSuidPython (out : String) : Bool :=
  seqTest "/usr/bin/python3".toList "4000".toList out.toList

/-- Rule 3 regex `/uid=0\(root\)/`: a plain substring test. -/
def testRootUid (out : String) : Bool :=
  containsSub "uid=0(root)".toList out.toList

/-- The ordered `vulnerabilityPatterns` catalog of `analyzeCommandResult`. -/
def vulnerabilityPatterns : List VulnRule :=
  [ { test := testNopasswdFind,
      title := "Sudo Privilege Escalation via find",
      description := "The user can run find with sudo without password, which can be exploited for privilege escalation",
      severity := .high,
      category := "Privilege Escalation",
      recommendation := "Remove NOPASSWD permission for find or restrict its usage" },
    { test := testSuidPython,
      title := "SUID Python Binary",
      description := "Python binary has SUID bit set, allowing privilege escalation",
      severity := .critical,
      category := "Privilege Escalation",
      recommendation := "Remove SUID bit from Python binary: chmod u-s /usr/bin/python3" },
    { test := testRootUid,
      title := "Root Access Achieved",
      description := "Successfully escalated privileges to root user",
      severity := .critical,
      category := "Privilege Escalation",
      recommendation := "Investigate how root access was obtained and patch the vulnerability" } ]

/-- The fixed keyword vocabulary of `detectVulnerabilitiesFromResponse`. -/
def vulnKeywords : List String :=
  [ "vulnerability", "exploit", "privilege escalation", "buffer overflow",
    "sql injection", "xss", "csrf", "directory traversal", "weak password",
    "misconfiguration", "exposed service", "unpatched system" ]

/- ### Orchestrator state and events

`HackingBuddyService` owns a nullable configuration, the message-id counter,
and the `scanInterval` timer handle.  The JS runtime's set of live
`setInterval` timers is made explicit as `scheduled`; each scheduled timer
carries the `commandIndex` cursor captured by its interval closure.
`nextTimer` is the fresh-handle source.  Events record what the service
publishes through its three listener arrays; delivery to individual
subscribers (including the id/timestamp assignment of `emitMessage` /
`emitVulnerability`) is modelled separately below for the event-bus claims,
so orchestrator-level events carry the emitted payloads. -/

/-- A scheduled recurring timer: the `setInterval` handle plus the
`commandIndex` cursor captured by the interval closure of
`startAutomaticScan`. -/
structure TimerRec where
  tid : Nat
  cursor : Nat
deriving DecidableEq, Repr

/-- The mutable fields of a `HackingBuddyService` instance, plus the explicit
set of timers scheduled in the runtime. -/
structure OrchState where
  config : Option Configuration
  messageId : Nat
  scanInterval : Option Nat
  scheduled : List TimerRec
  nextTimer : Nat
deriving DecidableEq, Repr

/-- One published event: a chat message, a vulnerability finding, or a
partial `SystemStatus` update.  The status event mirrors the three shapes the
source emits: `{connected: b}`, `{scanning: true, lastScan: new Date()}` and
`{scanning: false}`. -/
inductive Event
  | msgE (m : MsgPayload)
  | vulnE (v : VulnPayload)
  | statusE (connected : Option Bool) (scanning : Option Bool) (lastScanSet : Bool)
deriving DecidableEq, Repr

/-- Constructor shorthand for `OrchState` (used in proofs and statements
where a structure literal would be unwieldy). -/
def mkState (c : Option Configuration) (mid : Nat) (si : Option Nat)
    (sch : List TimerRec) (nt : Nat) : OrchState :=
  { config := c, messageId := mid, scanInterval := si, scheduled := sch,
    nextTimer := nt }

/-- `emitMessage`: bumps the monotone message-id counter and publishes the
payload (the full record built from it is covered by the event-bus model). -/
def emitMessageO (s : OrchState) (p : MsgPayload) : OrchState × Event :=
  ({ s with messageId := s.messageId + 1 }, Event.msgE p)

/-- `emitVulnerability`: publishes the payload (id/discoveredAt are
time-based and do not touch the orchestrator state). -/
def emitVulnO (s : OrchState) (v : VulnPayload) : OrchState × Event :=
  (s, Event.vulnE v)

/-- `emitStatusChange`: publishes a partial status update. -/
def emitStatusO (s : OrchState) (connected scanning : Option Bool)
    (lastScanSet : Bool) : OrchState × Event :=
  (s, Event.statusE connected scanning lastScanSet)

/-- The `this.config?.connection.host || 'Target System'` default used for
`affectedComponent` (JS `||`: an empty host string is falsy). -/
def hostOr (cfg : Option Configuration) : String :=
  match cfg with
  | none => "Target System"
  | some c => if c.connection.host = "" then "Target System" else c.connection.host

/-- The finding built from a catalog rule by `analyzeCommandResult`:
template fields from the rule, `evidence = [command, output]`,
`affectedComponent` from the configuration. -/
def ruleVuln (r : VulnRule) (cfg : Option Configuration) (command output : String) :
    VulnPayload :=
  { title := r.title, description := r.description, severity := r.severity,
    category := r.category, affectedComponent := hostOr cfg,
    recommendation := r.recommendation, evidence := [command, output] }

/-- The `for (const pattern of vulnerabilityPatterns) if (pattern.pattern.test(output)) ...`
loop of `analyzeCommandResult`, over an explicit rule list: every matching
rule emits its finding and then a vulnerability chat message; evaluation is
independent per rule, with no short-circuit. -/
def anaRules : List VulnRule → OrchState → String → String → OrchState × List Event
  | [], s, _, _ => (s, [])
  | r :: rest, s, command, output =>
      if r.test output then
        let (s1, e1) := emitVulnO s (ruleVuln r s.config command output)
        let (s2, e2) := emitMessageO s1
          { content := "🚨 VULNERABILITY DETECTED: " ++ r.title ++ "\n\n" ++ r.description,
            sender := .system, mtype := .vulnerability }
        let (s3, evs) := anaRules rest s2 command output
        (s3, e1 :: e2 :: evs)
      else anaRules rest s command output

/-- `analyzeCommandResult(command, output)`. -/
def analyzeCommandResult (s : OrchState) (command output : String) :
    OrchState × List Event :=
  anaRules vulnerabilityPatterns s command output

/-- `detectVulnerabilitiesFromResponse(response)`: keyword scan over the
lower-cased reply; one medium "Analysis" finding when at least one keyword of
the fixed vocabulary occurs, none otherwise. -/
def detectVulnerabilitiesFromResponse (s : OrchState) (response : String) :
    OrchState × List Event :=
  let foundKeywords := vulnKeywords.filter
    (fun keyword => containsSub keyword.toList (lowerL response.toList))
  if 0 < foundKeywords.length then
    let (s1, e1) := emitVulnO s
      { title := "Potential Security Issue Identified",
        description := "AI analysis suggests potential security concerns: " ++
          String.intercalate ", " foundKeywords,
        severity := .medium, category := "Analysis",
        affectedComponent := hostOr s.config,
        recommendation := "Further investigation required based on AI analysis",
        evidence := [response] }
    (s1, [e1])
  else (s, [])

/-- `executeCommand(command)`: emits the command message, the simulated
result message, then runs the detection rules over the output. -/
def executeCommand (s : OrchState) (command : String) : OrchState × List Event :=
  match s.config with
  | none => (s, [])
  | some _ =>
      let (s1, e1) := emitMessageO s
        { content := "Executing command: " ++ command, sender := .system,
          mtype := .command, metaCommand := some command }
      let r := simulateCommandExecution command
      let (s2, e2) := emitMessageO s1
        { content := r.output, sender := .system, mtype := .result,
          metaCommand := some command, metaExitCode := some r.exitCode }
      let (s3, evs) := analyzeCommandResult s2 command r.output
      (s3, e1 :: e2 :: evs)

/-- The `for (const command of commands) await this.executeCommand(command)`
loop of `analyzeAIResponse`. -/
def runCommands : List String → OrchState → OrchState × List Event
  | [], s => (s, [])
  | c :: cs, s =>
      let (s1, e1) := executeCommand s c
      let (s2, e2) := runCommands cs s1
      (s2, e1 ++ e2)

/-- `analyzeAIResponse(response)`: extract the fenced commands, execute each
in order, then run the keyword scan over the whole reply. -/
def analyzeAIResponse (s : OrchState) (response : String) : OrchState × List Event :=
  let commands := extractCommands response
  let (s1, e1) := runCommands commands s
  let (s2, e2) := detectVulnerabilitiesFromResponse s1 response
  (s2, e1 ++ e2)

/- ### The LLM endpoint seam

One chat-completion POST is summarised by its outcome: a 200 response whose
body exposes `choices[0].message.content`; a 200 response with a different
shape; a non-2xx HTTP response (axios rejects those by default); or a
transport error carrying an error `code`.  `JsError` models the thrown axios
error object as far as the source inspects it (`error.response`,
`error.code`, `error.message`). -/

/-- Outcome of one POST to the LLM endpoint. -/
inductive LLMOutcome
  | ok (content : String)
  | malformed
  | httpError (status : Nat) (statusText : String)
  | netError (code : String) (message : String)
deriving DecidableEq, Repr

/-- The thrown error object, as far as the source inspects it. -/
structure JsError where
  response : Option (Nat × String)
  code : Option String
  message : String
deriving DecidableEq, Repr

/-- The awaited POST itself: resolves (with the raw response) unless the
request fails at transport level or with a non-2xx status.  A 200 response
with a malformed body still resolves here — the body has not been read yet. -/
def postOnly : LLMOutcome → Except JsError Unit
  | .ok _ => .ok ()
  | .malformed => .ok ()
  | .httpError status statusText =>
      .error { response := some (status, statusText), code := none,
               message := "Request failed with status code " ++ toString status }
  | .netError code message =>
      .error { response := none, code := some code, message := message }

/-- The POST followed by the `response.data.choices[0].message.content`
access: a malformed body turns into a thrown `TypeError` at that access. -/
def postChatCompletion : LLMOutcome → Except JsError String
  | .ok content => .ok content
  | .malformed =>
      .error { response := none, code := none,
               message := "Cannot read properties of undefined" }
  | .httpError status statusText =>
      .error { response := some (status, statusText), code := none,
               message := "Request failed with status code " ++ toString status }
  | .netError code message =>
      .error { response := none, code := some code, message := message }

/-- JS string truthiness (empty string is falsy), used by the connection
field checks of `simulateSSHConnection`. -/
def truthy (s : String) : Bool := s ≠ ""

/-- Revision 1 `simulateSSHConnection`: resolves (after a fixed delay) with
`!!host && !!username && (password || keyfilename)`. -/
def simulateSSHConnection (cfg : Configuration) : Bool :=
  truthy cfg.connection.host && truthy cfg.connection.username &&
    (truthy cfg.connection.password || truthy cfg.connection.keyfilename)

/-- Revision 2 `simulateSSHConnection`: requires `hostname` as well; when the
required fields are present every path of the image-probe promise resolves
`true` (both the 2s timeout and the `onload`/`onerror` callbacks), so the
outcome is exactly the field-presence check. -/
def simulateSSHConnection2 (cfg : Configuration) : Bool :=
  truthy cfg.connection.host && truthy cfg.connection.username &&
    truthy cfg.connection.hostname &&
    (truthy cfg.connection.password || truthy cfg.connection.keyfilename)

/-- Revision 1 `testConnection` (lines 76-103): throws only when no
configuration is set; any request failure is caught, emits
`{connected: false}` and resolves `false`; on request success the synthetic
SSH check decides the result.  (The in-`try` non-200 throw is subsumed: axios
already rejects non-2xx responses, and either throw lands in the same
`catch`.) -/
def testConnection (s : OrchState) (llm : LLMOutcome) :
    Except String (OrchState × List Event × Bool) :=
  match s.config with
  | none => .error "Configuration not set"
  | some cfg =>
      match postOnly llm with
      | .ok _ =>
          let sshTest := simulateSSHConnection cfg
          let (s1, e1) := emitStatusO s (some sshTest) none false
          .ok (s1, [e1], sshTest)
      | .error _ =>
          let (s1, e1) := emitStatusO s (some false) none false
          .ok (s1, [e1], false)

/-- The descriptive message built in revision 2's `catch` block. -/
def testConnErrorMessage (e : JsError) : String :=
  match e.response with
  | some (status, statusText) =>
      "LLM API Error: " ++ toString status ++ " - " ++ statusText
  | none =>
      if e.code = some "ECONNREFUSED" then
        "Cannot connect to LLM API - check URL and ensure Ollama is running"
      else if e.message ≠ "" then e.message
      else "Connection test failed"

/-- Revision 2 `testConnection` (lines 490-534): the `catch` block builds a
descriptive message and `throw`s it; the `emitStatusChange({connected: false})`
and `return false` statements that follow the `throw` in the source are
unreachable, so a request failure escapes as an exception with no status
emission. -/
def testConnection2 (s : OrchState) (llm : LLMOutcome) :
    Except String (OrchState × List Event × Bool) :=
  match s.config with
  | none => .error "Configuration not set"
  | some cfg =>
      match postOnly llm with
      | .ok _ =>
          let sshTest := simulateSSHConnection2 cfg
          let (s1, e1) := emitStatusO s (some sshTest) none false
          .ok (s1, [e1], sshTest)
      | .error e => .error (testConnErrorMessage e)

/-- `sendMessage(content)` (identical control flow in both revisions): fails
with the not-configured error when unset; wraps any request failure in the
constant upstream error after emitting nothing; on success emits the
assistant reply and runs the analysis pipeline. -/
def sendMessage (s : OrchState) (content : String) (llm : LLMOutcome) :
    Except String (OrchState × List Event) :=
  match s.config with
  | none => .error "Configuration not set"
  | some _ =>
      match postChatCompletion llm with
      | .error _ => .error "Failed to communicate with AI model"
      | .ok aiResponse =>
          let (s1, e1) := emitMessageO s
            { content := aiResponse, sender := .assistant, mtype := .text }
          let (s2, evs) := analyzeAIResponse s1 aiResponse
          .ok (s2, e1 :: evs)

/- ### The scripted scan -/

/-- The fixed `scanCommands` sequence of `startAutomaticScan`. -/
def scanCommands : List String :=
  [ "whoami",
    "id",
    "sudo -l",
    "find / -perm -4000 2>/dev/null | head -20",
    "cat /etc/os-release",
    "ps aux | head -10",
    "netstat -tulpn 2>/dev/null | head -10",
    "ls -la /etc/cron* 2>/dev/null",
    "find /var/www -type f -name \"*.php\" 2>/dev/null | head -5",
    "cat /etc/passwd | head -10" ]

/-- `stopScan()`: clears the tracked timer handle if set, then emits
`{scanning: false}` and the completion message unconditionally. -/
def stopScan (s : OrchState) : OrchState × List Event :=
  let s0 :=
    match s.scanInterval with
    | some t => { s with scheduled := s.scheduled.filter (fun r => r.tid ≠ t), scanInterval := none }
    | none => s
  let (s1, e1) := emitStatusO s0 none (some false) false
  let (s2, e2) := emitMessageO s1
    { content := "Automatic scan completed.", sender := .system, mtype := .text }
  (s2, [e1, e2])

/-- `startAutomaticScan()`: fails when unconfigured; emits the
`{scanning: true, lastScan: now}` status and the banner message; schedules a
fresh recurring timer with cursor 0 and stores its handle in `scanInterval`
without touching any previously scheduled timer. -/
def startAutomaticScan (s : OrchState) : Except String (OrchState × List Event) :=
  match s.config with
  | none => .error "Configuration not set"
  | some _ =>
      let (s1, e1) := emitStatusO s none (some true) true
      let (s2, e2) := emitMessageO s1
        { content := "Starting automatic security scan...", sender := .system,
          mtype := .text }
      let tid := s2.nextTimer
      .ok ({ s2 with scheduled := s2.scheduled ++ [{ tid := tid, cursor := 0 }], scanInterval := some tid, nextTimer := tid + 1 }, [e1, e2])

/-- One firing of the interval callback of timer `tid` (revision 1 body,
lines 358-387), with `adv` the outcome of the advisory model call of that
tick.  A timer that is no longer scheduled does not fire.  At an exhausted
cursor the callback calls `stopScan` and returns; otherwise it emits the
best-effort advisory message (a failed advisory call is logged only),
executes the current scripted command, and advances the closure cursor. -/
def scanTick (s : OrchState) (tid : Nat) (adv : LLMOutcome) : OrchState × List Event :=
  match s.scheduled.find? (fun r => r.tid = tid) with
  | none => (s, [])
  | some rec =>
      if scanCommands.length ≤ rec.cursor then stopScan s
      else
        let command := scanCommands.getD rec.cursor ""
        let (s1, advEvs) :=
          match postChatCompletion adv with
          | .ok c =>
              let (st, e) := emitMessageO s
                { content := "🔍 " ++ c, sender := .assistant, mtype := .text }
              (st, [e])
          | .error _ => (s, [])
        let (s2, execEvs) := executeCommand s1 command
        let s3 := { s2 with scheduled := s2.scheduled.map (fun r => if r.tid = tid then { r with cursor := r.cursor + 1 } else r) }
        (s3, advEvs ++ execEvs)

/-- Run `n` consecutive ticks of timer `tid`, with `adv i` the advisory-call
outcome of the `i`-th tick; returns the final state and the per-tick event
lists. -/
def runScanTrace (s : OrchState) (tid : Nat) (adv : Nat → LLMOutcome) :
    Nat → OrchState × List (List Event)
  | 0 => (s, [])
  | n + 1 =>
      let (s1, evs) := scanTick s tid (adv 0)
      let (s2, rest) := runScanTrace s1 tid (fun i => adv (i + 1)) n
      (s2, evs :: rest)

/- ### The event bus (`eventListeners` arrays and the emit helpers)

All three emitters end in
`this.eventListeners.X.forEach(callback => callback(full))`.
A subscriber is summarised by its registration id and by whether its callback
throws when invoked; `jsForEach` reproduces `Array.prototype.forEach`
semantics: callbacks run synchronously in array order, and an exception
thrown by one callback propagates out of `forEach`, so the remaining
callbacks are never invoked.  The call log pairs each invoked subscriber with
the record it received. -/

/-- A registered listener: its registration position and whether its callback
throws when invoked. -/
structure Subscriber where
  sid : Nat
  throws : Bool
deriving DecidableEq, Repr

/-- `Array.prototype.forEach` over the listener array: returns the ordered
call log (subscriber id, delivered record) and whether an exception escaped
the loop. -/
def jsForEach {α : Type} (x : α) : List Subscriber → List (Nat × α) × Bool
  | [] => ([], false)
  | s :: rest =>
      if s.throws then ([(s.sid, x)], true)
      else
        let (calls, exc) := jsForEach x rest
        ((s.sid, x) :: calls, exc)

/-- The listeners actually invoked by `jsForEach`: the longest prefix of
non-throwing listeners, plus the first throwing one when it exists. -/
def invokedSubs : List Subscriber → List Subscriber
  | [] => []
  | s :: rest => if s.throws then [s] else s :: invokedSubs rest

/-- `emitMessage` in full: builds the complete `ChatMessage` (id is the
incremented monotone counter in string form, timestamp is the capture time)
and publishes it to the listener array.  Returns the new counter, the full
record, and the delivery log. -/
def emitMessageFull (messageId now : Nat) (subs : List Subscriber)
    (p : MsgPayload) : Nat × ChatMessage × (List (Nat × ChatMessage) × Bool) :=
  let newId := messageId + 1
  let full : ChatMessage := { payload := p, id := toString newId, timestamp := now }
  (newId, full, jsForEach full subs)

/-- `emitVulnerability` in full: builds the complete `Vulnerability`
(id is `Date.now()` in string form, `discoveredAt` the same instant) and
publishes it to the listener array. -/
def emitVulnerabilityFull (now : Nat) (subs : List Subscriber)
    (p : VulnPayload) : Vulnerability × (List (Nat × Vulnerability) × Bool) :=
  let full : Vulnerability := { payload := p, id := toString now, discoveredAt := now }
  (full, jsForEach full subs)

/- ### Fenced-block structure of a model reply (for the extraction claims)

A reply "containing N fenced code blocks" is formalised as an interleaving of
plain segments and blocks.  Well-formedness pins down what "fenced block"
means: no stray backticks inside segments or bodies (otherwise the fence
pairing itself is ambiguous), and an untagged body must not itself begin with
the letters `bash`/`shell` (the regex would read those as a tag). -/

/-- The three-backtick fence. -/
def fenceL : List Char := [bq, bq, bq]

/-- No backtick occurs in the text. -/
def noTick (l : List Char) : Bool := l.all (fun c => c ≠ bq)

/-- Optional language tag of a fenced block, as the regex distinguishes
them. -/
inductive FenceTag
  | untagged
  | bash
  | shell
deriving DecidableEq, Repr

/-- Rendering of a tag right after the opening fence. -/
def renderTag : FenceTag → List Char
  | .untagged => []
  | .bash => bashL
  | .shell => shellL

/-- One fenced code block. -/
structure CodeBlock where
  tag : FenceTag
  body : List Char
deriving DecidableEq, Repr

/-- A model reply: a leading plain segment, then blocks each followed by a
plain segment. -/
structure Reply where
  head : List Char
  rest : List (CodeBlock × List Char)
deriving DecidableEq, Repr

/-- Render the block list: fence, tag, body, fence, following segment. -/
def renderBlocks : List (CodeBlock × List Char) → List Char
  | [] => []
  | (b, seg) :: rest =>
      fenceL ++ renderTag b.tag ++ b.body ++ fenceL ++ seg ++ renderBlocks rest

/-- Render a whole reply. -/
def renderReply (r : Reply) : List Char := r.head ++ renderBlocks r.rest

/-- Block well-formedness: backtick-free body; an untagged body must not
begin with a `bash`/`shell` tag of its own. -/
def wfBlock (b : CodeBlock) : Bool :=
  noTick b.body &&
    (match b.tag with
     | .untagged => !(isPre bashL b.body) && !(isPre shellL b.body)
     | _ => true)

/-- Reply well-formedness: backtick-free segments and well-formed blocks. -/
def wfReply (r : Reply) : Bool :=
  noTick r.head && r.rest.all (fun p => wfBlock p.1 && noTick p.2)

/- ### Event projections -/

/-- The commands of the `Executing command` messages in an event list (the
observable "command executions"). -/
def execCmds (evs : List Event) : List String :=
  evs.filterMap (fun e => match e with
    | .msgE m => if m.mtype = MsgType.command then m.metaCommand else none
    | _ => none)

/-- The status-change events of an event list. -/
def statusEvents (evs : List Event) : List Event :=
  evs.filter (fun e => match e with
    | .statusE _ _ _ => true
    | _ => false)

/-- The assistant-sender chat messages of an event list. -/
def assistantMsgs (evs : List Event) : List Event :=
  evs.filter (fun e => match e with
    | .msgE m => m.sender = Sender.assistant
    | _ => false)

/-- The vulnerability findings of an event list. -/
def vulnsOf (evs : List Event) : List VulnPayload :=
  evs.filterMap (fun e => match e with
    | .vulnE v => some v
    | _ => none)

/- ### Shared concrete inputs for witnesses -/

/-- A fully populated configuration (the shape produced by the configuration
panel). -/
def cfgW : Configuration :=
  { llm := { model := "gemma2:2b", api_url := "http://localhost:11434",
             api_key := "sk-no-key-needed", context_size := 16385,
             api_path := "/v1/chat/completions", api_timeout := 240,
             api_backoff := 60, api_retries := 3 },
    connection := { host := "10.0.0.5", hostname := "target", port := 22,
                    username := "alice", password := "pw", keyfilename := "" } }

/-- A configured, idle service instance. -/
def stateW : OrchState :=
  { config := some cfgW, messageId := 0, scanInterval := none,
    scheduled := [], nextTimer := 0 }

/-- A reply with two fenced blocks: one `bash`-tagged, one untagged. -/
def replyW : Reply :=
  { head := String.toList "Try:\n",
    rest := [ ({ tag := FenceTag.bash, body := String.toList " ls -la\n" },
               String.toList "\nthen\n"),
              ({ tag := FenceTag.untagged, body := String.toList "id" },
               String.toList " done") ] }

/-- A reply with zero fenced blocks. -/
def replyW0 : Reply := { head := String.toList "No commands here.", rest := [] }

/-- A command output on which two of the three rules fire at once. -/
def outW : String := "uid=0(root) (ALL) NOPASSWD: /usr/bin/find"

/-- The worked keyword example from the specification. -/
def respW : String :=
  "This looks like a classic SQL injection and privilege escalation issue."

/- ### Claim C3: single active scan timer -/

/-- The orchestrator state reached by calling `startAutomaticScan` twice from
the configured idle instance. -/
def afterTwoStarts : Except String OrchState :=
  match startAutomaticScan stateW with
  | .error e => .error e
  | .ok (s1, _) =>
      match startAutomaticScan s1 with
      | .error e => .error e
      | .ok (s2, _) => .ok s2

/- ### Claim C9: stopScan -/

/-- The two events `stopScan` always emits: the `{scanning: false}` status
change and the completion message. -/
def stopEvents : List Event :=
  [Event.statusE none (some false) false,
   Event.msgE { content := "Automatic scan completed.", sender := Sender.system,
                mtype := MsgType.text }]

/-- The orchestrator state after start, start, stop, stop from the configured
idle instance. -/
def afterStartsStops : OrchState :=
  match afterTwoStarts with
  | .ok s => (stopScan (stopScan s).1).1
  | .error _ => stateW

/-- A state with one active scan: the tracked timer is the only scheduled
one. -/
def stateW2 : OrchState :=
  { config := some cfgW, messageId := 3, scanInterval := some 5,
    scheduled := [{ tid := 5, cursor := 2 }], nextTimer := 6 }

/- ### Claim C4: sendMessage error handling -/

/-- Whether a chat-completion outcome is a request failure (transport error,
non-200 status, or malformed response body). -/
def llmFails : LLMOutcome → Bool
  | .ok _ => false
  | _ => true

/-- Advisory outcomes that alternate between success and transport failure,
exercising both tick paths. -/
def advW : Nat → LLMOutcome := fun i =>
  if i % 2 = 0 then LLMOutcome.ok "analysis" else LLMOutcome.netError "ETIMEDOUT" "timeout"

theorem splitAtFence_len {l : List Char} {p : List Char × List Char}
    (h : splitAtFence l = some p) : p.2.length + 3 ≤ l.length := by
  induction l generalizing p with
  | nil => simp [splitAtFence] at h
  | cons c rest ih =>
      by_cases hc : c = bq ∧ rest.take 2 = [bq, bq]
      · rw [splitAtFence, if_pos hc] at h
        have h2 : rest.length ≥ 2 := by
          have := congrArg List.length hc.2
          simp at this
          omega
        cases h
        simp
        omega
      · rw [splitAtFence, if_neg hc] at h
        cases hq : splitAtFence rest with
        | none => rw [hq] at h; simp at h
        | some q =>
            rw [hq] at h
            simp only [Option.map_some'] at h
            have := ih hq
            cases h
            simp
            omega

theorem stripTag_len (l : List Char) : (stripTag l).length ≤ l.length := by
  unfold stripTag
  split
  · simp
  · split
    · simp
    · exact le_refl _

theorem extractGo_fuel :
    ∀ (f1 : Nat) (f2 : Nat) (l : List Char), l.length ≤ f1 → l.length ≤ f2 →
      extractGo f1 l = extractGo f2 l := by
  intro f1
  induction f1 with
  | zero =>
      intro f2 l h1 _
      have : l = [] := List.length_eq_zero.mp (Nat.le_zero.mp h1)
      subst this
      cases f2 with
      | zero => rfl
      | succ n => simp [extractGo, splitAtFence]
  | succ f1 ih =>
      intro f2 l h1 h2
      cases f2 with
      | zero =>
          have : l = [] := List.length_eq_zero.mp (Nat.le_zero.mp h2)
          subst this
          simp [extractGo, splitAtFence]
      | succ f2 =>
          simp only [extractGo]
          split
          · rfl
          · rename_i pr hs1
            split
            · rfl
            · rename_i pr2 hs2
              have a := splitAtFence_len hs1
              have b := splitAtFence_len hs2
              have c := stripTag_len pr.2
              simp only [List.cons.injEq, true_and]
              exact ih f2 pr2.2 (by omega) (by omega)

/-- Unfolding equation for `extractCommandsL`: one regex match, then recurse
on the remainder of the reply. -/
theorem extractCommandsL_eq (l : List Char) :
    extractCommandsL l =
      match splitAtFence l with
      | none => []
      | some pr =>
          match splitAtFence (stripTag pr.2) with
          | none => []
          | some pr2 => trimChars pr2.1 :: extractCommandsL pr2.2 := by
  unfold extractCommandsL
  rw [extractGo_fuel l.length (l.length + 1) l (le_refl _) (Nat.le_succ _)]
  simp only [extractGo]
  split
  · rfl
  · rename_i pr hs1
    split
    · rfl
    · rename_i pr2 hs2
      have a := splitAtFence_len hs1
      have b := splitAtFence_len hs2
      have c := stripTag_len pr.2
      simp only [List.cons.injEq, true_and]
      exact extractGo_fuel l.length pr2.2.length pr2.2 (by omega) (le_refl _)

theorem splitAtFence_none_of_noTick : ∀ {l : List Char},
    noTick l = true → splitAtFence l = none := by
  intro l h
  induction l with
  | nil => rfl
  | cons c rest ih =>
      unfold noTick at h
      simp only [List.all_cons, Bool.and_eq_true, decide_eq_true_eq] at h
      rw [splitAtFence, if_neg (fun hh => h.1 hh.1)]
      rw [ih (by unfold noTick; exact h.2)]
      rfl

theorem splitAtFence_append : ∀ {a : List Char} (b : List Char),
    noTick a = true → splitAtFence (a ++ fenceL ++ b) = some (a, b) := by
  intro a
  induction a with
  | nil =>
      intro b _
      show splitAtFence (bq :: bq :: bq :: b) = some ([], b)
      rw [splitAtFence, if_pos (by simp)]
      rfl
  | cons c a' ih =>
      intro b h
      unfold noTick at h
      simp only [List.all_cons, Bool.and_eq_true, decide_eq_true_eq] at h
      show splitAtFence (c :: (a' ++ fenceL ++ b)) = some (c :: a', b)
      rw [splitAtFence, if_neg (fun hh => h.1 hh.1)]
      rw [ih b (by unfold noTick; exact h.2)]
      rfl

theorem isPre_append_self : ∀ (w x : List Char), isPre w (w ++ x) = true := by
  intro w x
  induction w with
  | nil => rfl
  | cons c w' ih => simp [isPre, ih]

theorem isPre_append_fence : ∀ (p body r : List Char), noTick p = true →
    isPre p (body ++ fenceL ++ r) = isPre p body := by
  intro p
  induction p with
  | nil => intro body r _; rfl
  | cons c p' ih =>
      intro body r hp
      unfold noTick at hp
      simp only [List.all_cons, Bool.and_eq_true, decide_eq_true_eq] at hp
      cases body with
      | nil =>
          show isPre (c :: p') (bq :: bq :: bq :: r) = isPre (c :: p') []
          rw [isPre, isPre]
          simp [hp.1]
      | cons d body' =>
          show isPre (c :: p') (d :: (body' ++ fenceL ++ r)) = isPre (c :: p') (d :: body')
          rw [isPre, isPre, ih body' r (by unfold noTick; exact hp.2)]

/-- Unfolding of `extractCommandsL` at an input with no fence. -/
theorem extractCommandsL_noFence {l : List Char} (h : splitAtFence l = none) :
    extractCommandsL l = [] := by
  rw [extractCommandsL_eq, h]

/-- Unfolding of `extractCommandsL` at one complete match. -/
theorem extractCommandsL_step {l a m body after : List Char}
    (h1 : splitAtFence l = some (a, m))
    (h2 : splitAtFence (stripTag m) = some (body, after)) :
    extractCommandsL l = trimChars body :: extractCommandsL after := by
  rw [extractCommandsL_eq, h1]
  simp only [h2]

theorem isPre_cons_ne {c d : Char} (p l : List Char) (h : c ≠ d) :
    isPre (c :: p) (d :: l) = false := by
  rw [isPre]
  simp [h]

/-- Effect of the `(?:bash|shell)?` tag on a rendered block: a rendered
`bash`/`shell` tag is consumed exactly, and an untagged well-formed body is
left alone (the fence that follows the body cannot complete a `bash`/`shell`
prefix, since tags contain no backtick). -/
theorem stripTag_render (t : FenceTag) (body r : List Char)
    (hbody : noTick body = true)
    (hguard : t = FenceTag.untagged →
      isPre bashL body = false ∧ isPre shellL body = false) :
    stripTag (renderTag t ++ (body ++ fenceL ++ r)) = body ++ fenceL ++ r := by
  cases t with
  | untagged =>
      obtain ⟨hb, hs⟩ := hguard rfl
      simp only [renderTag, List.nil_append]
      unfold stripTag
      rw [isPre_append_fence bashL body r (by decide),
          isPre_append_fence shellL body r (by decide), hb, hs]
      simp
  | bash =>
      simp only [renderTag]
      unfold stripTag
      rw [isPre_append_self bashL (body ++ fenceL ++ r)]
      simp [bashL]
  | shell =>
      simp only [renderTag]
      unfold stripTag
      have hb : isPre bashL (shellL ++ (body ++ fenceL ++ r)) = false := by
        show isPre ('b' :: ['a', 's', 'h']) ('s' :: (['h', 'e', 'l', 'l'] ++ (body ++ fenceL ++ r))) = false
        exact isPre_cons_ne _ _ (by decide)
      rw [hb, isPre_append_self shellL (body ++ fenceL ++ r)]
      simp [shellL]

/-- Extraction over a rendered reply, by induction over its block list. -/
theorem extract_render : ∀ (blocks : List (CodeBlock × List Char)) (head : List Char),
    noTick head = true →
    blocks.all (fun p => wfBlock p.1 && noTick p.2) = true →
    extractCommandsL (head ++ renderBlocks blocks) =
      blocks.map (fun p => trimChars p.1.body) := by
  intro blocks
  induction blocks with
  | nil =>
      intro head hh _
      simp only [renderBlocks, List.append_nil, List.map_nil]
      exact extractCommandsL_noFence (splitAtFence_none_of_noTick hh)
  | cons bp rest ih =>
      intro head hh hb
      obtain ⟨b, seg⟩ := bp
      simp only [List.all_cons, Bool.and_eq_true] at hb
      obtain ⟨⟨hwfb, hseg⟩, hrest⟩ := hb
      unfold wfBlock at hwfb
      simp only [Bool.and_eq_true] at hwfb
      obtain ⟨hbody, htag⟩ := hwfb
      have hguard : b.tag = FenceTag.untagged →
          isPre bashL b.body = false ∧ isPre shellL b.body = false := by
        intro ht
        rw [ht] at htag
        simp only [Bool.and_eq_true, Bool.not_eq_true'] at htag
        exact htag
      have hre : head ++ renderBlocks ((b, seg) :: rest) =
          head ++ fenceL ++
            (renderTag b.tag ++ (b.body ++ fenceL ++ (seg ++ renderBlocks rest))) := by
        simp [renderBlocks, List.append_assoc]
      have h1 := splitAtFence_append
        (renderTag b.tag ++ (b.body ++ fenceL ++ (seg ++ renderBlocks rest))) hh
      have h2 : splitAtFence
          (stripTag (renderTag b.tag ++ (b.body ++ fenceL ++ (seg ++ renderBlocks rest)))) =
          some (b.body, seg ++ renderBlocks rest) := by
        rw [stripTag_render b.tag b.body _ hbody hguard]
        exact splitAtFence_append _ hbody
      rw [hre, extractCommandsL_step h1 h2, ih seg hseg hrest]
      simp

@[simp]
theorem execCmds_nil : execCmds [] = [] := rfl

@[simp]
theorem execCmds_vuln (v : VulnPayload) (evs : List Event) :
    execCmds (Event.vulnE v :: evs) = execCmds evs := by
  simp [execCmds, List.filterMap_cons]

@[simp]
theorem execCmds_status (c sc : Option Bool) (ls : Bool) (evs : List Event) :
    execCmds (Event.statusE c sc ls :: evs) = execCmds evs := by
  simp [execCmds, List.filterMap_cons]

@[simp]
theorem execCmds_msg (m : MsgPayload) (evs : List Event) :
    execCmds (Event.msgE m :: evs) =
      (if m.mtype = MsgType.command then
        match m.metaCommand with
        | some c => c :: execCmds evs
        | none => execCmds evs
      else execCmds evs) := by
  by_cases hm : m.mtype = MsgType.command
  · simp only [execCmds, List.filterMap_cons, hm, if_true]
    cases m.metaCommand <;> simp
  · simp [execCmds, List.filterMap_cons, hm]

@[simp]
theorem statusEvents_nil : statusEvents [] = [] := rfl

@[simp]
theorem statusEvents_msg (m : MsgPayload) (evs : List Event) :
    statusEvents (Event.msgE m :: evs) = statusEvents evs := by
  simp [statusEvents, List.filter_cons]

@[simp]
theorem statusEvents_vuln (v : VulnPayload) (evs : List Event) :
    statusEvents (Event.vulnE v :: evs) = statusEvents evs := by
  simp [statusEvents, List.filter_cons]

@[simp]
theorem statusEvents_status (c sc : Option Bool) (ls : Bool) (evs : List Event) :
    statusEvents (Event.statusE c sc ls :: evs) =
      Event.statusE c sc ls :: statusEvents evs := by
  simp [statusEvents, List.filter_cons]

@[simp]
theorem assistantMsgs_nil : assistantMsgs [] = [] := rfl

@[simp]
theorem assistantMsgs_vuln (v : VulnPayload) (evs : List Event) :
    assistantMsgs (Event.vulnE v :: evs) = assistantMsgs evs := by
  simp [assistantMsgs, List.filter_cons]

@[simp]
theorem assistantMsgs_status (c sc : Option Bool) (ls : Bool) (evs : List Event) :
    assistantMsgs (Event.statusE c sc ls :: evs) = assistantMsgs evs := by
  simp [assistantMsgs, List.filter_cons]

@[simp]
theorem assistantMsgs_msg (m : MsgPayload) (evs : List Event) :
    assistantMsgs (Event.msgE m :: evs) =
      (if m.sender = Sender.assistant then Event.msgE m :: assistantMsgs evs
       else assistantMsgs evs) := by
  by_cases hm : m.sender = Sender.assistant <;>
    simp [assistantMsgs, List.filter_cons, hm]

@[simp]
theorem vulnsOf_nil : vulnsOf [] = [] := rfl

@[simp]
theorem vulnsOf_msg (m : MsgPayload) (evs : List Event) :
    vulnsOf (Event.msgE m :: evs) = vulnsOf evs := by
  simp [vulnsOf, List.filterMap_cons]

@[simp]
theorem vulnsOf_status (c sc : Option Bool) (ls : Bool) (evs : List Event) :
    vulnsOf (Event.statusE c sc ls :: evs) = vulnsOf evs := by
  simp [vulnsOf, List.filterMap_cons]

@[simp]
theorem vulnsOf_vuln (v : VulnPayload) (evs : List Event) :
    vulnsOf (Event.vulnE v :: evs) = v :: vulnsOf evs := by
  simp [vulnsOf, List.filterMap_cons]

@[simp]
theorem execCmds_append (a b : List Event) :
    execCmds (a ++ b) = execCmds a ++ execCmds b := by
  simp [execCmds, List.filterMap_append]

@[simp]
theorem statusEvents_append (a b : List Event) :
    statusEvents (a ++ b) = statusEvents a ++ statusEvents b := by
  simp [statusEvents, List.filter_append]

@[simp]
theorem assistantMsgs_append (a b : List Event) :
    assistantMsgs (a ++ b) = assistantMsgs a ++ assistantMsgs b := by
  simp [assistantMsgs, List.filter_append]

@[simp]
theorem vulnsOf_append (a b : List Event) :
    vulnsOf (a ++ b) = vulnsOf a ++ vulnsOf b := by
  simp [vulnsOf, List.filterMap_append]

/- ### Pipeline invariants -/

theorem anaRules_spec (rules : List VulnRule) :
    ∀ (s : OrchState) (command output : String),
    (anaRules rules s command output).1.config = s.config ∧
    (anaRules rules s command output).1.scanInterval = s.scanInterval ∧
    (anaRules rules s command output).1.scheduled = s.scheduled ∧
    (anaRules rules s command output).1.nextTimer = s.nextTimer ∧
    vulnsOf (anaRules rules s command output).2 =
      (rules.filter (fun r => r.test output)).map
        (fun r => ruleVuln r s.config command output) ∧
    execCmds (anaRules rules s command output).2 = [] ∧
    statusEvents (anaRules rules s command output).2 = [] ∧
    assistantMsgs (anaRules rules s command output).2 = [] := by
  induction rules with
  | nil => intro s command output; simp [anaRules]
  | cons r rest ih =>
      intro s command output
      by_cases h : r.test output
      · obtain ⟨h1, h2, h3, h4, h5, h6, h7, h8⟩ :=
          ih { s with messageId := s.messageId + 1 } command output
        simp only [anaRules, h, if_true, emitVulnO, emitMessageO]
        simp [List.filter_cons, h, h1, h2, h3, h4, h5, h6, h7, h8]
      · obtain ⟨h1, h2, h3, h4, h5, h6, h7, h8⟩ := ih s command output
        simp only [anaRules, h, if_false]
        simp [List.filter_cons, h, h1, h2, h3, h4, h5, h6, h7, h8]

theorem detect_spec (s : OrchState) (response : String) :
    (detectVulnerabilitiesFromResponse s response).1 = s ∧
    execCmds (detectVulnerabilitiesFromResponse s response).2 = [] ∧
    statusEvents (detectVulnerabilitiesFromResponse s response).2 = [] ∧
    assistantMsgs (detectVulnerabilitiesFromResponse s response).2 = [] := by
  unfold detectVulnerabilitiesFromResponse
  by_cases h : 0 < (vulnKeywords.filter
      (fun keyword => containsSub keyword.data (lowerL response.data))).length
  · simp [h, emitVulnO]
  · simp [h]

@[simp]
theorem analyzeCommandResult_config (s : OrchState) (command output : String) :
    (analyzeCommandResult s command output).1.config = s.config :=
  (anaRules_spec vulnerabilityPatterns s command output).1

@[simp]
theorem analyzeCommandResult_scanInterval (s : OrchState) (command output : String) :
    (analyzeCommandResult s command output).1.scanInterval = s.scanInterval :=
  (anaRules_spec vulnerabilityPatterns s command output).2.1

@[simp]
theorem analyzeCommandResult_scheduled (s : OrchState) (command output : String) :
    (analyzeCommandResult s command output).1.scheduled = s.scheduled :=
  (anaRules_spec vulnerabilityPatterns s command output).2.2.1

@[simp]
theorem analyzeCommandResult_nextTimer (s : OrchState) (command output : String) :
    (analyzeCommandResult s command output).1.nextTimer = s.nextTimer :=
  (anaRules_spec vulnerabilityPatterns s command output).2.2.2.1

theorem analyzeCommandResult_vulns (s : OrchState) (command output : String) :
    vulnsOf (analyzeCommandResult s command output).2 =
      (vulnerabilityPatterns.filter (fun r => r.test output)).map
        (fun r => ruleVuln r s.config command output) :=
  (anaRules_spec vulnerabilityPatterns s command output).2.2.2.2.1

@[simp]
theorem analyzeCommandResult_execCmds (s : OrchState) (command output : String) :
    execCmds (analyzeCommandResult s command output).2 = [] :=
  (anaRules_spec vulnerabilityPatterns s command output).2.2.2.2.2.1

@[simp]
theorem analyzeCommandResult_statusEvents (s : OrchState) (command output : String) :
    statusEvents (analyzeCommandResult s command output).2 = [] :=
  (anaRules_spec vulnerabilityPatterns s command output).2.2.2.2.2.2.1

@[simp]
theorem analyzeCommandResult_assistantMsgs (s : OrchState) (command output : String) :
    assistantMsgs (analyzeCommandResult s command output).2 = [] :=
  (anaRules_spec vulnerabilityPatterns s command output).2.2.2.2.2.2.2

theorem executeCommand_spec (s : OrchState) (command : String) (cfg : Configuration)
    (h : s.config = some cfg) :
    (executeCommand s command).1.config = s.config ∧
    (executeCommand s command).1.scanInterval = s.scanInterval ∧
    (executeCommand s command).1.scheduled = s.scheduled ∧
    (executeCommand s command).1.nextTimer = s.nextTimer ∧
    execCmds (executeCommand s command).2 = [command] ∧
    statusEvents (executeCommand s command).2 = [] ∧
    assistantMsgs (executeCommand s command).2 = [] := by
  unfold executeCommand
  rw [h]
  simp [emitMessageO, h]

theorem runCommands_spec : ∀ (cmds : List String) (s : OrchState) (cfg : Configuration),
    s.config = some cfg →
    (runCommands cmds s).1.config = s.config ∧
    (runCommands cmds s).1.scanInterval = s.scanInterval ∧
    (runCommands cmds s).1.scheduled = s.scheduled ∧
    (runCommands cmds s).1.nextTimer = s.nextTimer ∧
    execCmds (runCommands cmds s).2 = cmds ∧
    statusEvents (runCommands cmds s).2 = [] ∧
    assistantMsgs (runCommands cmds s).2 = [] := by
  intro cmds
  induction cmds with
  | nil => intro s cfg h; simp [runCommands]
  | cons c cs ih =>
      intro s cfg h
      obtain ⟨e1, e2, e3, e4, e5, e6, e7⟩ := executeCommand_spec s c cfg h
      cases hx : executeCommand s c with
      | mk s' evs' =>
          rw [hx] at e1 e2 e3 e4 e5 e6 e7
          obtain ⟨i1, i2, i3, i4, i5, i6, i7⟩ := ih s' cfg (by rw [show s'.config = s.config from e1, h])
          simp only [runCommands, hx]
          cases hy : runCommands cs s' with
          | mk s'' evs'' =>
              rw [hy] at i1 i2 i3 i4 i5 i6 i7
              simp_all

theorem detect_state (s : OrchState) (response : String) :
    (detectVulnerabilitiesFromResponse s response).1 = s :=
  (detect_spec s response).1

/-- If no command is extracted from the reply, the analysis pipeline performs
no command execution (and publishes no command message at all). -/
theorem execCmds_analyze_of_no_commands (s : OrchState) (response : String)
    (h : extractCommands response = []) :
    execCmds (analyzeAIResponse s response).2 = [] := by
  unfold analyzeAIResponse
  rw [h]
  simp only [runCommands]
  obtain ⟨d1, d2, d3, d4⟩ := detect_spec s response
  cases hd : detectVulnerabilitiesFromResponse s response with
  | mk s'' evs'' =>
      rw [hd] at d2
      simp_all

theorem analyzeAIResponse_spec (s : OrchState) (response : String) (cfg : Configuration)
    (h : s.config = some cfg) :
    (analyzeAIResponse s response).1.config = s.config ∧
    (analyzeAIResponse s response).1.scanInterval = s.scanInterval ∧
    (analyzeAIResponse s response).1.scheduled = s.scheduled ∧
    (analyzeAIResponse s response).1.nextTimer = s.nextTimer ∧
    execCmds (analyzeAIResponse s response).2 = extractCommands response ∧
    statusEvents (analyzeAIResponse s response).2 = [] ∧
    assistantMsgs (analyzeAIResponse s response).2 = [] := by
  unfold analyzeAIResponse
  obtain ⟨r1, r2, r3, r4, r5, r6, r7⟩ :=
    runCommands_spec (extractCommands response) s cfg h
  cases hx : runCommands (extractCommands response) s with
  | mk s' evs' =>
      rw [hx] at r1 r2 r3 r4 r5 r6 r7
      obtain ⟨d1, d2, d3, d4⟩ := detect_spec s' response
      cases hd : detectVulnerabilitiesFromResponse s' response with
      | mk s'' evs'' =>
          rw [hd] at d1 d2 d3 d4
          simp_all

/- ### Claim C5: command extraction -/

/-- Claim C5: command extraction is pure and order-preserving.  For every
well-formed reply, the commands extracted by `analyzeAIResponse`'s regex scan
are exactly the block bodies, trimmed of surrounding whitespace, in source
order (one per fenced block, `bash`/`shell` tags stripped); a reply with zero
fenced blocks yields zero commands, and the analysis pipeline then executes
zero commands — a normal, non-error case. -/
theorem extraction_pure_and_ordered (r : Reply) (s : OrchState)
    (h : wfReply r = true) :
    extractCommandsL (renderReply r) = r.rest.map (fun p => trimChars p.1.body) ∧
    (r.rest = [] → extractCommandsL (renderReply r) = [] ∧
      execCmds ((analyzeAIResponse s (String.mk (renderReply r))).2) = []) := by
  unfold wfReply at h
  simp only [Bool.and_eq_true] at h
  have main := extract_render r.rest r.head h.1 h.2
  refine ⟨main, ?_⟩
  intro hrest
  have he : extractCommandsL (renderReply r) = [] := by
    unfold renderReply
    rw [main, hrest]
    rfl
  refine ⟨he, execCmds_analyze_of_no_commands s _ ?_⟩
  unfold extractCommands
  rw [show (String.mk (renderReply r)).toList = renderReply r from rfl, he]
  rfl

theorem extraction_pure_and_ordered_witness :
    extractCommandsL (renderReply replyW) =
      [String.toList "ls -la", String.toList "id"] ∧
    execCmds ((analyzeAIResponse stateW (String.mk (renderReply replyW0))).2) = [] := by
  constructor
  · rw [(extraction_pure_and_ordered replyW stateW (by decide)).1]
    decide
  · exact ((extraction_pure_and_ordered replyW0 stateW (by decide)).2 rfl).2

/- ### Claim C6: per-rule command-result classification -/

theorem anaRules_no_match : ∀ (rules : List VulnRule) (s : OrchState)
    (command output : String),
    (∀ r ∈ rules, r.test output = false) →
    (anaRules rules s command output).2 = [] := by
  intro rules
  induction rules with
  | nil => intro s command output _; rfl
  | cons r rest ih =>
      intro s command output h
      have hr := h r (List.mem_cons_self r rest)
      simp only [anaRules, hr, Bool.false_eq_true, if_false]
      exact ih s command output (fun q hq => h q (List.mem_cons_of_mem _ hq))

/-- Claim C6: for every `(command, output)` pair, each rule of the ordered
catalog whose pattern matches the output contributes exactly one finding (in
catalog order, independently evaluated, no short-circuit), every finding
carries `evidence = [command, output]`, and an output matching no rule
produces no emission at all from command analysis. -/
theorem analyzeCommandResult_rules_spec (s : OrchState) (command output : String) :
    vulnsOf (analyzeCommandResult s command output).2 =
      (vulnerabilityPatterns.filter (fun r => r.test output)).map
        (fun r => ruleVuln r s.config command output) ∧
    (∀ v ∈ vulnsOf (analyzeCommandResult s command output).2,
      v.evidence = [command, output]) ∧
    ((∀ r ∈ vulnerabilityPatterns, r.test output = false) →
      (analyzeCommandResult s command output).2 = []) := by
  refine ⟨analyzeCommandResult_vulns s command output, ?_, ?_⟩
  · intro v hv
    rw [analyzeCommandResult_vulns] at hv
    simp only [List.mem_map] at hv
    obtain ⟨r, _, hr⟩ := hv
    rw [← hr]
    rfl
  · intro h
    exact anaRules_no_match vulnerabilityPatterns s command output h

theorem analyzeCommandResult_rules_witness :
    (vulnsOf (analyzeCommandResult stateW "sudo -l" outW).2).length = 2 ∧
    (∀ v ∈ vulnsOf (analyzeCommandResult stateW "sudo -l" outW).2,
      v.evidence = ["sudo -l", outW]) ∧
    (analyzeCommandResult stateW "id" "user").2 = [] := by
  refine ⟨?_, (analyzeCommandResult_rules_spec stateW "sudo -l" outW).2.1,
    (analyzeCommandResult_rules_spec stateW "id" "user").2.2 (by decide)⟩
  rw [(analyzeCommandResult_rules_spec stateW "sudo -l" outW).1]
  decide

/- ### Claim C7: response-text keyword scan -/

/-- Claim C7: for every model-reply text, if at least one keyword of the
fixed vocabulary occurs (case-insensitively) the scan emits exactly one
medium-severity "Analysis" finding whose description lists all matched
keywords — deduplicated and in vocabulary order, being a duplicate-free
sublist of the vocabulary — with evidence the whole reply text; zero matches
emit nothing. -/
theorem detect_keyword_scan_spec (s : OrchState) (response : String) :
    (vulnKeywords.filter
        (fun keyword => containsSub keyword.toList (lowerL response.toList)) = [] →
      (detectVulnerabilitiesFromResponse s response).2 = []) ∧
    (vulnKeywords.filter
        (fun keyword => containsSub keyword.toList (lowerL response.toList)) ≠ [] →
      (detectVulnerabilitiesFromResponse s response).2 =
        [Event.vulnE
          { title := "Potential Security Issue Identified",
            description := "AI analysis suggests potential security concerns: " ++
              String.intercalate ", "
                (vulnKeywords.filter
                  (fun keyword => containsSub keyword.toList (lowerL response.toList))),
            severity := Severity.medium, category := "Analysis",
            affectedComponent := hostOr s.config,
            recommendation := "Further investigation required based on AI analysis",
            evidence := [response] }]) ∧
    List.Sublist
      (vulnKeywords.filter
        (fun keyword => containsSub keyword.toList (lowerL response.toList)))
      vulnKeywords ∧
    (vulnKeywords.filter
      (fun keyword => containsSub keyword.toList (lowerL response.toList))).Nodup := by
  refine ⟨?_, ?_, List.filter_sublist vulnKeywords,
    List.Sublist.nodup (List.filter_sublist vulnKeywords) (by decide)⟩
  · intro h
    unfold detectVulnerabilitiesFromResponse
    simp only [h]
    simp
  · intro h
    have hl : 0 < (vulnKeywords.filter
        (fun keyword => containsSub keyword.toList (lowerL response.toList))).length :=
      List.length_pos.mpr h
    unfold detectVulnerabilitiesFromResponse
    simp only [hl, if_true, emitVulnO]

theorem detect_keyword_scan_witness :
    (detectVulnerabilitiesFromResponse stateW respW).2 =
      [Event.vulnE
        { title := "Potential Security Issue Identified",
          description := "AI analysis suggests potential security concerns: privilege escalation, sql injection",
          severity := Severity.medium, category := "Analysis",
          affectedComponent := "10.0.0.5",
          recommendation := "Further investigation required based on AI analysis",
          evidence := [respW] }] ∧
    (detectVulnerabilitiesFromResponse stateW "All clear.").2 = [] := by
  constructor
  · rw [(detect_keyword_scan_spec stateW respW).2.1 (by decide)]
    decide
  · exact (detect_keyword_scan_spec stateW "All clear.").1 (by decide)

/- ### Claim C10: fenced blocks with unknown language tags -/

theorem dropWhile_all_neg {p : Char → Bool} : ∀ {l : List Char},
    l.all (fun c => !(p c)) = true → l.dropWhile p = l := by
  intro l h
  induction l with
  | nil => rfl
  | cons c rest ih =>
      simp only [List.all_cons, Bool.and_eq_true, Bool.not_eq_true'] at h
      rw [List.dropWhile_cons, if_neg (by simp [h.1])]

/-- Trimming a word followed by arbitrary text keeps the word as a prefix,
provided the word is nonempty and whitespace-free. -/
theorem trimChars_word (w body : List Char) (hw : w ≠ [])
    (hall : w.all (fun c => !(isWs c)) = true) :
    isPre w (trimChars (w ++ body)) = true := by
  have hpre : ∀ x : List Char, isPre w (w ++ x) = true := isPre_append_self w
  unfold trimChars
  have h1 : (w ++ body).dropWhile isWs = w ++ body := by
    cases w with
    | nil => exact absurd rfl hw
    | cons c w' =>
        simp only [List.all_cons, Bool.and_eq_true, Bool.not_eq_true'] at hall
        simp [List.cons_append, List.dropWhile_cons, hall.1]
  rw [h1, List.reverse_append, List.dropWhile_append]
  have hwrev : w.reverse.dropWhile isWs = w.reverse :=
    dropWhile_all_neg (by rw [List.all_reverse]; exact hall)
  by_cases hempty : (body.reverse.dropWhile isWs).isEmpty
  · rw [if_pos hempty, hwrev, List.reverse_reverse]
    simpa using hpre []
  · rw [if_neg hempty, List.reverse_append, List.reverse_reverse]
    exact hpre _

/-- Claim C10, amended: a fenced block whose text after the opening fence
starts with a language word is not skipped — it still yields exactly one
candidate command — and, provided that text does not itself begin with the
letters `bash` or `shell`, the tag is not stripped: the extracted command
begins with the language word, followed by the block body.  (When the tag
does begin with `bash`/`shell` — e.g. `shellcheck` — the regex consumes those
letters as a tag; see the counterexample.) -/
theorem unknown_tag_preserved (head w body : List Char)
    (hh : noTick head = true) (hw : w ≠ [])
    (hw1 : w.all (fun c => !(isWs c)) = true) (hw2 : noTick w = true)
    (hbody : noTick body = true)
    (hp1 : isPre bashL (w ++ body) = false)
    (hp2 : isPre shellL (w ++ body) = false) :
    extractCommandsL (head ++ (fenceL ++ (w ++ body) ++ fenceL)) =
      [trimChars (w ++ body)] ∧
    isPre w (trimChars (w ++ body)) = true := by
  constructor
  · have hwf : List.all [({ tag := FenceTag.untagged, body := w ++ body }, ([] : List Char))]
        (fun p => wfBlock p.1 && noTick p.2) = true := by
      simp only [List.all_cons, List.all_nil, Bool.and_true, wfBlock, noTick,
        List.all_append, Bool.and_eq_true, Bool.not_eq_true']
      refine ⟨⟨?_, ?_⟩, ⟨hp1, hp2⟩⟩
      · exact (by unfold noTick at hw2; exact hw2)
      · exact (by unfold noTick at hbody; exact hbody)
    have := extract_render
      [({ tag := FenceTag.untagged, body := w ++ body }, ([] : List Char))] head hh hwf
    simpa [renderBlocks, renderTag, List.append_assoc] using this
  · exact trimChars_word w body hw hw1

theorem unknown_tag_preserved_witness :
    extractCommandsL
      (String.toList "See:" ++ (fenceL ++
        (String.toList "python" ++ String.toList "\nprint(1)\n") ++ fenceL)) =
      [trimChars (String.toList "python" ++ String.toList "\nprint(1)\n")] ∧
    isPre (String.toList "python")
      (trimChars (String.toList "python" ++ String.toList "\nprint(1)\n")) = true :=
  unknown_tag_preserved (String.toList "See:") (String.toList "python")
    (String.toList "\nprint(1)\n") (by decide) (by decide) (by decide) (by decide)
    (by decide) (by decide) (by decide)

/-- Claim C10, counterexample: the fixed regex tries to consume a literal
`bash`/`shell` tag before the capture, so a block opened with the language
word `shellcheck` — a word other than `bash` or `shell` — loses its first
five letters: the extracted command is `check disable=SC2086`, which does not
begin with the language word, contradicting the claim that the tag is never
stripped for such words. -/
theorem unknown_tag_counterexample :
    extractCommandsL (fenceL ++ String.toList "shellcheck disable=SC2086" ++ fenceL) =
      [String.toList "check disable=SC2086"] ∧
    isPre (String.toList "shellcheck") (String.toList "check disable=SC2086") = false := by
  decide

/- ### Claim C2: event delivery -/

theorem jsForEach_spec {α : Type} (x : α) : ∀ (subs : List Subscriber),
    (jsForEach x subs).1 = (invokedSubs subs).map (fun sub => (sub.sid, x)) ∧
    (jsForEach x subs).2 = subs.any (fun sub => sub.throws) := by
  intro subs
  induction subs with
  | nil => exact ⟨rfl, rfl⟩
  | cons sub rest ih =>
      by_cases h : sub.throws
      · simp [jsForEach, invokedSubs, h]
      · simp [jsForEach, invokedSubs, h, ih.1, ih.2]

theorem invokedSubs_all : ∀ (subs : List Subscriber),
    subs.all (fun sub => !sub.throws) = true → invokedSubs subs = subs := by
  intro subs h
  induction subs with
  | nil => rfl
  | cons sub rest ih =>
      simp only [List.all_cons, Bool.and_eq_true, Bool.not_eq_true'] at h
      simp only [invokedSubs, h.1, Bool.false_eq_true, if_false, List.cons.injEq, true_and]
      exact ih (by simp [List.all_eq_true]; intro a ha; have := h.2; simp [List.all_eq_true] at this; simp [this a ha])

/-- Claim C2, counterexample: with an earlier-registered subscriber whose
callback throws and a later-registered one, `forEach` lets the exception
escape and the later subscriber is never called, contradicting the claim
that one subscriber's exception does not prevent later-registered
subscribers from being called. -/
theorem emit_subscriber_exception_counterexample :
    ((emitMessageFull 0 5 [{ sid := 0, throws := true }, { sid := 1, throws := false }]
        { content := "hello", sender := Sender.assistant, mtype := MsgType.text }).2.2.1).map
      Prod.fst = [0] ∧
    (emitMessageFull 0 5 [{ sid := 0, throws := true }, { sid := 1, throws := false }]
        { content := "hello", sender := Sender.assistant, mtype := MsgType.text }).2.2.2 = true := by
  decide

/-- Claim C2, amended: every emission builds the full record first —
`emitMessage` assigns the incremented monotone counter (string form) as id
and the capture time as timestamp, `emitVulnerability` assigns the time-based
id and `discoveredAt` — and delivers it synchronously, in registration order;
but delivery covers exactly the subscribers up to and including the first
whose callback throws, the exception escaping the emit: only when no
subscriber throws is every registered subscriber called. -/
theorem emit_delivery_spec (mid now : Nat) (subs : List Subscriber)
    (p : MsgPayload) (v : VulnPayload) :
    (emitMessageFull mid now subs p).1 = mid + 1 ∧
    (emitMessageFull mid now subs p).2.1 =
      { payload := p, id := toString (mid + 1), timestamp := now } ∧
    (emitMessageFull mid now subs p).2.2.1 =
      (invokedSubs subs).map (fun sub => (sub.sid, (emitMessageFull mid now subs p).2.1)) ∧
    (emitMessageFull mid now subs p).2.2.2 = subs.any (fun sub => sub.throws) ∧
    (subs.all (fun sub => !sub.throws) = true →
      (emitMessageFull mid now subs p).2.2.1 =
        subs.map (fun sub => (sub.sid, (emitMessageFull mid now subs p).2.1))) ∧
    (emitVulnerabilityFull now subs v).1 =
      { payload := v, id := toString now, discoveredAt := now } ∧
    (emitVulnerabilityFull now subs v).2.1 =
      (invokedSubs subs).map (fun sub => (sub.sid, (emitVulnerabilityFull now subs v).1)) := by
  refine ⟨rfl, rfl, (jsForEach_spec _ subs).1, (jsForEach_spec _ subs).2, ?_, rfl,
    (jsForEach_spec _ subs).1⟩
  intro hall
  simp only [emitMessageFull]
  rw [(jsForEach_spec _ subs).1, invokedSubs_all subs hall]

theorem emit_delivery_spec_witness :
    (emitMessageFull 7 5 [{ sid := 0, throws := false }, { sid := 1, throws := false }]
        { content := "hi", sender := Sender.system, mtype := MsgType.text }).2.2.1 =
      ([{ sid := 0, throws := false }, { sid := 1, throws := false }] : List Subscriber).map
        (fun sub => (sub.sid,
          (emitMessageFull 7 5 [{ sid := 0, throws := false }, { sid := 1, throws := false }]
            { content := "hi", sender := Sender.system, mtype := MsgType.text }).2.1)) :=
  (emit_delivery_spec 7 5 [{ sid := 0, throws := false }, { sid := 1, throws := false }]
    { content := "hi", sender := Sender.system, mtype := MsgType.text }
    { title := "t", description := "d", severity := Severity.low, category := "c",
      affectedComponent := "a", recommendation := "r", evidence := [] }).2.2.2.2.1
    (by decide)

/-- Claim C3, counterexample: starting a scan while one is active neither
cancels the prior timer nor rejects: after two starts, two recurring scan
timers are simultaneously scheduled, and `scanInterval` tracks only the
second one — the first handle is lost, so no later call can clear it. -/
theorem double_start_counterexample :
    afterTwoStarts = Except.ok
      { config := some cfgW, messageId := 2, scanInterval := some 1,
        scheduled := [{ tid := 0, cursor := 0 }, { tid := 1, cursor := 0 }],
        nextTimer := 2 } ∧
    (match afterTwoStarts with
     | .ok s => s.scheduled.length
     | .error _ => 0) = 2 :=
  ⟨rfl, rfl⟩

/-- Claim C3, amended: `startAutomaticScan` performs no guard against an
already-active scan.  From any configured state it succeeds, schedules one
fresh recurring timer with cursor 0 while retaining every previously
scheduled timer, and overwrites the tracked handle with the new one — so a
state with two simultaneously scheduled scan timers is reachable by starting
twice. -/
theorem start_scan_appends_timer (s : OrchState) (cfg : Configuration)
    (h : s.config = some cfg) :
    startAutomaticScan s = Except.ok
      ({ config := s.config, messageId := s.messageId + 1,
         scanInterval := some s.nextTimer,
         scheduled := s.scheduled ++ [{ tid := s.nextTimer, cursor := 0 }],
         nextTimer := s.nextTimer + 1 },
       [Event.statusE none (some true) true,
        Event.msgE { content := "Starting automatic security scan...",
                     sender := Sender.system, mtype := MsgType.text }]) := by
  unfold startAutomaticScan
  rw [h]
  simp [emitStatusO, emitMessageO, h]

theorem start_scan_appends_timer_witness :
    startAutomaticScan stateW = Except.ok
      ({ config := some cfgW, messageId := 1, scanInterval := some 0,
         scheduled := [{ tid := 0, cursor := 0 }], nextTimer := 1 },
       [Event.statusE none (some true) true,
        Event.msgE { content := "Starting automatic security scan...",
                     sender := Sender.system, mtype := MsgType.text }]) :=
  start_scan_appends_timer stateW cfgW rfl

/-- Claim C9, counterexample: in the reachable double-start state, two
consecutive `stopScan` calls do emit their status/message pairs, but only the
tracked second timer is cancelled — the orphaned first timer is still
scheduled afterwards, contradicting "cancels any active timer ... with no
timer left scheduled" over all states. -/
theorem stop_scan_leak_counterexample :
    afterStartsStops =
      { config := some cfgW, messageId := 4, scanInterval := none,
        scheduled := [{ tid := 0, cursor := 0 }], nextTimer := 2 } ∧
    afterStartsStops.scheduled ≠ [] := by
  decide

/-- Claim C9, amended: `stopScan` is total and idempotent on what it tracks:
from any state (scan active or not) it never errors, emits exactly the
`scanning:false` status plus the completion message — two consecutive calls
emit the pair twice — clears the tracked handle, and removes the tracked
timer from the schedule; it cancels only that timer, so nothing remains
scheduled afterwards exactly when every scheduled timer was the tracked
one (in particular after a single well-formed start). -/
theorem stopScan_eq_none (s : OrchState) (h : s.scanInterval = none) :
    stopScan s = ({ s with messageId := s.messageId + 1 }, stopEvents) := by
  unfold stopScan
  rw [h]
  simp [emitStatusO, emitMessageO, stopEvents, h]

theorem stopScan_eq_some (s : OrchState) (t : Nat) (h : s.scanInterval = some t) :
    stopScan s =
      ({ config := s.config, messageId := s.messageId + 1, scanInterval := none,
         scheduled := s.scheduled.filter (fun r => r.tid ≠ t),
         nextTimer := s.nextTimer }, stopEvents) := by
  unfold stopScan
  rw [h]
  simp [emitStatusO, emitMessageO, stopEvents, h]

theorem stopScan_idempotent_total (s : OrchState) :
    (stopScan s).2 = stopEvents ∧
    (stopScan (stopScan s).1).2 = stopEvents ∧
    (stopScan (stopScan s).1).1.scanInterval = none ∧
    (s.scanInterval = none → (stopScan (stopScan s).1).1.scheduled = s.scheduled) ∧
    (∀ t, s.scanInterval = some t →
      (stopScan (stopScan s).1).1.scheduled =
        s.scheduled.filter (fun r => r.tid ≠ t)) ∧
    ((∀ r ∈ s.scheduled, s.scanInterval = some r.tid) →
      (stopScan (stopScan s).1).1.scheduled = []) := by
  cases hsi : s.scanInterval with
  | none =>
      refine ⟨?_, ?_, ?_, ?_, ?_, ?_⟩
      · simp [stopScan, hsi, emitStatusO, emitMessageO, stopEvents]
      · simp [stopScan, hsi, emitStatusO, emitMessageO, stopEvents]
      · simp [stopScan, hsi, emitStatusO, emitMessageO]
      · intro _
        simp [stopScan, hsi, emitStatusO, emitMessageO]
      · intro t ht
        simp at ht
      · intro h
        have hnil : s.scheduled = [] := by
          cases hs : s.scheduled with
          | nil => rfl
          | cons r rest =>
              have := h r (by rw [hs]; exact List.mem_cons_self r rest)
              simp at this
        simp [stopScan, hsi, emitStatusO, emitMessageO, hnil]
  | some t =>
      refine ⟨?_, ?_, ?_, ?_, ?_, ?_⟩
      · simp [stopScan, hsi, emitStatusO, emitMessageO, stopEvents]
      · simp [stopScan, hsi, emitStatusO, emitMessageO, stopEvents]
      · simp [stopScan, hsi, emitStatusO, emitMessageO]
      · intro h0
        simp at h0
      · intro t' ht'
        simp at ht'
        subst ht'
        simp [stopScan, hsi, emitStatusO, emitMessageO]
      · intro h
        have hfil : s.scheduled.filter (fun r => r.tid ≠ t) = [] := by
          rw [List.filter_eq_nil_iff]
          intro r hr
          have h2 := h r hr
          simp at h2
          simp [h2]
        simp [stopScan, hsi, emitStatusO, emitMessageO, hfil]
        intro a ha
        have h2 := h a ha
        simp at h2
        exact h2.symm

theorem stopScan_idempotent_total_witness :
    (stopScan stateW2).2 = stopEvents ∧
    (stopScan (stopScan stateW2).1).2 = stopEvents ∧
    (stopScan (stopScan stateW2).1).1.scanInterval = none ∧
    (stopScan (stopScan stateW2).1).1.scheduled =
      stateW2.scheduled.filter (fun r => r.tid ≠ 5) ∧
    (stopScan (stopScan stateW2).1).1.scheduled = [] := by
  obtain ⟨w1, w2, w3, _, w5, w6⟩ := stopScan_idempotent_total stateW2
  exact ⟨w1, w2, w3, w5 5 rfl, w6 (by decide)⟩

/- ### Claim C1: testConnection error handling -/

/-- Claim C1 evaluated at a failing request (code bug): revision 1's
`testConnection` behaves as claimed — the failure is caught, `connected:false`
is emitted and the call resolves `false` — but revision 2's `testConnection`
throws the descriptive error instead: its `emitStatusChange({connected:false})`
and `return false` sit after the `throw` and are unreachable, so a non-200
response escapes the boundary as an exception and no status change is
emitted. -/
theorem testConnection_failure_behavior :
    testConnection stateW (LLMOutcome.httpError 500 "Internal Server Error") =
      Except.ok (stateW, [Event.statusE (some false) none false], false) ∧
    testConnection2 stateW (LLMOutcome.httpError 500 "Internal Server Error") =
      Except.error "LLM API Error: 500 - Internal Server Error" :=
  ⟨rfl, rfl⟩

/-- Claim C4: `sendMessage` fails with the not-configured error when no
configuration is set; on any request failure it emits nothing and fails with
the constant wrapped upstream error (the same for every failure, leaking
nothing of the transport error); only on success is exactly one assistant
message emitted, first, before the analysis events. -/
theorem sendMessage_contract (s : OrchState) (content : String) :
    (s.config = none →
      ∀ o, sendMessage s content o = Except.error "Configuration not set") ∧
    (∀ cfg, s.config = some cfg →
      (∀ o, llmFails o = true →
        sendMessage s content o =
          Except.error "Failed to communicate with AI model") ∧
      (∀ aiText, ∃ p,
        sendMessage s content (LLMOutcome.ok aiText) = Except.ok p ∧
        p.2.head? = some (Event.msgE
          { content := aiText, sender := Sender.assistant, mtype := MsgType.text }) ∧
        (assistantMsgs p.2).length = 1)) := by
  constructor
  · intro h o
    unfold sendMessage
    rw [h]
  · intro cfg hc
    constructor
    · intro o ho
      unfold sendMessage
      rw [hc]
      cases o with
      | ok c => simp [llmFails] at ho
      | malformed => rfl
      | httpError status statusText => rfl
      | netError code message => rfl
    · intro aiText
      obtain ⟨sc, mid, si, sch, nt⟩ := s
      change sc = some cfg at hc
      subst hc
      refine ⟨((analyzeAIResponse (mkState (some cfg) (mid + 1) si sch nt) aiText).1,
        Event.msgE { content := aiText, sender := Sender.assistant, mtype := MsgType.text } ::
          (analyzeAIResponse (mkState (some cfg) (mid + 1) si sch nt) aiText).2),
        rfl, rfl, ?_⟩
      have ha := (analyzeAIResponse_spec (mkState (some cfg) (mid + 1) si sch nt)
        aiText cfg rfl).2.2.2.2.2.2
      simp [ha]

theorem sendMessage_contract_witness :
    sendMessage stateW "hi" (LLMOutcome.netError "ECONNREFUSED" "connect ECONNREFUSED") =
      Except.error "Failed to communicate with AI model" ∧
    (∃ p, sendMessage stateW "hi" (LLMOutcome.ok "All good") = Except.ok p ∧
      p.2.head? = some (Event.msgE
        { content := "All good", sender := Sender.assistant, mtype := MsgType.text }) ∧
      (assistantMsgs p.2).length = 1) ∧
    sendMessage (mkState none 0 none [] 0) "hi" (LLMOutcome.ok "x") =
      Except.error "Configuration not set" :=
  ⟨((sendMessage_contract stateW "hi").2 cfgW rfl).1
      (LLMOutcome.netError "ECONNREFUSED" "connect ECONNREFUSED") rfl,
   ((sendMessage_contract stateW "hi").2 cfgW rfl).2 "All good",
   (sendMessage_contract _ "hi").1 rfl (LLMOutcome.ok "x")⟩

/- ### Claim C8: the scripted scan runs to completion -/

theorem scanTick_step (cfg : Configuration) (M t nt c : Nat) (adv : LLMOutcome)
    (hc : c < scanCommands.length) :
    (∃ M2, (scanTick (mkState (some cfg) M (some t)
        [{ tid := t, cursor := c }] nt) t adv).1 =
      mkState (some cfg) M2 (some t) [{ tid := t, cursor := c + 1 }] nt) ∧
    execCmds (scanTick (mkState (some cfg) M (some t)
        [{ tid := t, cursor := c }] nt) t adv).2 = [scanCommands.getD c ""] ∧
    statusEvents (scanTick (mkState (some cfg) M (some t)
        [{ tid := t, cursor := c }] nt) t adv).2 = [] := by
  have hfind : (mkState (some cfg) M (some t)
      [{ tid := t, cursor := c }] nt).scheduled.find? (fun r => r.tid = t) =
      some { tid := t, cursor := c } := by
    simp [mkState]
  unfold scanTick
  rw [hfind]
  dsimp only
  rw [if_neg (by omega)]
  cases adv with
  | ok advText =>
      simp only [postChatCompletion, emitMessageO]
      obtain ⟨e1, e2, e3, e4, e5, e6, e7⟩ := executeCommand_spec
        (mkState (some cfg) (M + 1) (some t) [{ tid := t, cursor := c }] nt)
        (scanCommands.getD c "") cfg rfl
      cases hx : executeCommand
          (mkState (some cfg) (M + 1) (some t) [{ tid := t, cursor := c }] nt)
          (scanCommands.getD c "") with
      | mk s2 evs2 =>
          rw [hx] at e1 e2 e3 e4 e5 e6 e7
          refine ⟨⟨s2.messageId, ?_⟩, ?_, ?_⟩
          · simp only [mkState] at *
            simp_all
          · simp_all [mkState]
          · simp_all [mkState]
  | malformed =>
      simp only [postChatCompletion]
      obtain ⟨e1, e2, e3, e4, e5, e6, e7⟩ := executeCommand_spec
        (mkState (some cfg) M (some t) [{ tid := t, cursor := c }] nt)
        (scanCommands.getD c "") cfg rfl
      cases hx : executeCommand
          (mkState (some cfg) M (some t) [{ tid := t, cursor := c }] nt)
          (scanCommands.getD c "") with
      | mk s2 evs2 =>
          rw [hx] at e1 e2 e3 e4 e5 e6 e7
          refine ⟨⟨s2.messageId, ?_⟩, ?_, ?_⟩
          · simp only [mkState] at *
            simp_all
          · simp_all [mkState]
          · simp_all [mkState]
  | httpError status statusText =>
      simp only [postChatCompletion]
      obtain ⟨e1, e2, e3, e4, e5, e6, e7⟩ := executeCommand_spec
        (mkState (some cfg) M (some t) [{ tid := t, cursor := c }] nt)
        (scanCommands.getD c "") cfg rfl
      cases hx : executeCommand
          (mkState (some cfg) M (some t) [{ tid := t, cursor := c }] nt)
          (scanCommands.getD c "") with
      | mk s2 evs2 =>
          rw [hx] at e1 e2 e3 e4 e5 e6 e7
          refine ⟨⟨s2.messageId, ?_⟩, ?_, ?_⟩
          · simp only [mkState] at *
            simp_all
          · simp_all [mkState]
          · simp_all [mkState]
  | netError code message =>
      simp only [postChatCompletion]
      obtain ⟨e1, e2, e3, e4, e5, e6, e7⟩ := executeCommand_spec
        (mkState (some cfg) M (some t) [{ tid := t, cursor := c }] nt)
        (scanCommands.getD c "") cfg rfl
      cases hx : executeCommand
          (mkState (some cfg) M (some t) [{ tid := t, cursor := c }] nt)
          (scanCommands.getD c "") with
      | mk s2 evs2 =>
          rw [hx] at e1 e2 e3 e4 e5 e6 e7
          refine ⟨⟨s2.messageId, ?_⟩, ?_, ?_⟩
          · simp only [mkState] at *
            simp_all
          · simp_all [mkState]
          · simp_all [mkState]

theorem scanTick_exhaust (cfg : Configuration) (M t nt c : Nat) (adv : LLMOutcome)
    (hc : scanCommands.length ≤ c) :
    scanTick (mkState (some cfg) M (some t) [{ tid := t, cursor := c }] nt) t adv =
      (mkState (some cfg) (M + 1) none [] nt, stopEvents) := by
  have hfind : (mkState (some cfg) M (some t)
      [{ tid := t, cursor := c }] nt).scheduled.find? (fun r => r.tid = t) =
      some { tid := t, cursor := c } := by
    simp [mkState]
  unfold scanTick
  rw [hfind]
  dsimp only
  rw [if_pos hc]
  simp [stopScan, mkState, emitStatusO, emitMessageO, stopEvents]

theorem runScanTrace_succ (s : OrchState) (t : Nat) (adv : Nat → LLMOutcome)
    (n : Nat) :
    runScanTrace s t adv (n + 1) =
      ((runScanTrace (scanTick s t (adv 0)).1 t (fun i => adv (i + 1)) n).1,
       (scanTick s t (adv 0)).2 ::
         (runScanTrace (scanTick s t (adv 0)).1 t (fun i => adv (i + 1)) n).2) := by
  simp only [runScanTrace]

theorem runScan_gen : ∀ (k c : Nat), c + k = scanCommands.length →
    ∀ (cfg : Configuration) (M t nt : Nat) (adv : Nat → LLMOutcome),
    (runScanTrace (mkState (some cfg) M (some t) [{ tid := t, cursor := c }] nt)
      t adv (k + 1)).1.scanInterval = none ∧
    (runScanTrace (mkState (some cfg) M (some t) [{ tid := t, cursor := c }] nt)
      t adv (k + 1)).1.scheduled = [] ∧
    (runScanTrace (mkState (some cfg) M (some t) [{ tid := t, cursor := c }] nt)
      t adv (k + 1)).2.length = k + 1 ∧
    (∀ i, i < k →
      execCmds ((runScanTrace (mkState (some cfg) M (some t)
          [{ tid := t, cursor := c }] nt) t adv (k + 1)).2.getD i []) =
        [scanCommands.getD (c + i) ""] ∧
      statusEvents ((runScanTrace (mkState (some cfg) M (some t)
          [{ tid := t, cursor := c }] nt) t adv (k + 1)).2.getD i []) = []) ∧
    (runScanTrace (mkState (some cfg) M (some t) [{ tid := t, cursor := c }] nt)
      t adv (k + 1)).2.getD k [] = stopEvents := by
  intro k
  induction k with
  | zero =>
      intro c hck cfg M t nt adv
      have hc : scanCommands.length ≤ c := by omega
      have he := scanTick_exhaust cfg M t nt c (adv 0) hc
      simp only [runScanTrace, he]
      refine ⟨by simp [mkState], by simp [mkState], rfl, ?_, rfl⟩
      intro i hi
      omega
  | succ k ih =>
      intro c hck cfg M t nt adv
      have hc : c < scanCommands.length := by omega
      obtain ⟨⟨M2, hs⟩, hex, hst⟩ := scanTick_step cfg M t nt c (adv 0) hc
      rw [runScanTrace_succ, hs]
      obtain ⟨i1, i2, i3, i4, i5⟩ := ih (c + 1) (by omega) cfg M2 t nt
        (fun i => adv (i + 1))
      refine ⟨by simpa using i1, by simpa using i2, by simp [i3], ?_,
        by simpa using i5⟩
      intro i hi
      cases i with
      | zero => exact ⟨by simpa using hex, by simpa using hst⟩
      | succ j =>
          have hj : j < k := by omega
          have hidx : c + 1 + j = c + (j + 1) := by omega
          have h4 := i4 j hj
          rw [hidx] at h4
          simpa using h4

/-- Claim C8: a scan started by `startAutomaticScan` on a configured idle
instance and driven to completion without an intervening `stopScan` (ticks
modelled sequentially, per the cooperative concurrency model) executes each
command of the fixed `scanCommands` sequence exactly once, in sequence order,
one per timer tick — whatever each tick's advisory model call returns — and
when the cursor exhausts the sequence the final tick cancels the timer
(nothing remains scheduled) and emits exactly one terminal `scanning:false`
status plus the completion message; no earlier tick emits any status
change. -/
theorem scripted_scan_completes (cfg : Configuration) (M t : Nat)
    (adv : Nat → LLMOutcome) :
    startAutomaticScan (mkState (some cfg) M none [] t) = Except.ok
      (mkState (some cfg) (M + 1) (some t) [{ tid := t, cursor := 0 }] (t + 1),
       [Event.statusE none (some true) true,
        Event.msgE { content := "Starting automatic security scan...", sender := Sender.system, mtype := MsgType.text }]) ∧
    (runScanTrace (mkState (some cfg) (M + 1) (some t) [{ tid := t, cursor := 0 }]
      (t + 1)) t adv (scanCommands.length + 1)).1.scanInterval = none ∧
    (runScanTrace (mkState (some cfg) (M + 1) (some t) [{ tid := t, cursor := 0 }]
      (t + 1)) t adv (scanCommands.length + 1)).1.scheduled = [] ∧
    (runScanTrace (mkState (some cfg) (M + 1) (some t) [{ tid := t, cursor := 0 }]
      (t + 1)) t adv (scanCommands.length + 1)).2.length = scanCommands.length + 1 ∧
    (∀ i, i < scanCommands.length →
      execCmds ((runScanTrace (mkState (some cfg) (M + 1) (some t)
          [{ tid := t, cursor := 0 }] (t + 1)) t adv
          (scanCommands.length + 1)).2.getD i []) = [scanCommands.getD i ""] ∧
      statusEvents ((runScanTrace (mkState (some cfg) (M + 1) (some t)
          [{ tid := t, cursor := 0 }] (t + 1)) t adv
          (scanCommands.length + 1)).2.getD i []) = []) ∧
    (runScanTrace (mkState (some cfg) (M + 1) (some t) [{ tid := t, cursor := 0 }]
      (t + 1)) t adv (scanCommands.length + 1)).2.getD scanCommands.length [] =
      stopEvents := by
  obtain ⟨g1, g2, g3, g4, g5⟩ := runScan_gen scanCommands.length 0 (by omega)
    cfg (M + 1) t (t + 1) adv
  refine ⟨?_, g1, g2, g3, ?_, g5⟩
  · exact start_scan_appends_timer (mkState (some cfg) M none [] t) cfg rfl
  · intro i hi
    have h4 := g4 i hi
    simpa using h4

theorem scripted_scan_completes_witness :
    execCmds (((runScanTrace (mkState (some cfgW) 1 (some 0)
        [{ tid := 0, cursor := 0 }] 1) 0 advW (scanCommands.length + 1)).2).getD 3 []) =
      [scanCommands.getD 3 ""] ∧
    ((runScanTrace (mkState (some cfgW) 1 (some 0) [{ tid := 0, cursor := 0 }] 1)
      0 advW (scanCommands.length + 1)).2).getD scanCommands.length [] = stopEvents :=
  ⟨((scripted_scan_completes cfgW 0 0 advW).2.2.2.2.1 3 (by decide)).1,
   (scripted_scan_completes cfgW 0 0 advW).2.2.2.2.2⟩
